import Mathlib

set_option maxRecDepth 4000

/- Batteries marks the rational-number operations irreducible, which
blocks `decide`-style evaluation of concrete scores; the kernel itself
ignores reducibility, so restoring the default transparency only lets
elaboration see what the kernel already accepts. -/
attribute [local semireducible] Rat.add Rat.sub Rat.mul Rat.inv Rat.ofScientific

/-!
Shallow embedding of the scoring / ranking utilities of the horse-race
prediction app (`app_utils.py`, mirrored by `bundle/app_utils.py`).

Cell values of the tabular data source are modelled by `Value`
(a missing/None cell, a finite numeric cell, or a text cell); Python
floats and ints are both modelled as rationals (the source immediately
coerces both through `float`, and every claim concerns finite values).
`round` is Python's banker's rounding, modelled exactly on rationals.
-/

namespace HorseApp

/-- A cell value of the input table: `None`, a finite number (Python
int/float, modelled as a rational), or a string. -/
inductive Value where
  | null : Value
  | num : ℚ → Value
  | str : String → Value
deriving DecidableEq, Repr

/-- A table row, as pandas exposes it to `Series.get`: an association
list from column name to cell value (first binding wins). -/
def Row : Type := List (String × Value)

instance : DecidableEq Row := inferInstanceAs (DecidableEq (List (String × Value)))

/-- `row.get(key, default)` of a pandas `Series`: the stored value when
the key is present, the default otherwise. -/
def rowGet (r : Row) (k : String) (d : Value) : Value :=
  (List.lookup k r).getD d

/-- Overwrite (or add) one field of a row; later reads of `k` see `v`. -/
def rowSet (r : Row) (k : String) (v : Value) : Row :=
  (k, v) :: r

/-- The tabular data source: named columns plus a list of rows. -/
structure DataFrame where
  cols : List String
  rows : List Row
deriving DecidableEq

instance : Inhabited DataFrame := ⟨⟨[], []⟩⟩

/-- `df.empty` of pandas: true when the frame has no elements, i.e. no
rows or no columns. -/
def dfEmpty (df : DataFrame) : Bool :=
  df.rows.isEmpty || df.cols.isEmpty

/-- Python `str(value)` for a cell value.  The numeric case stands for
Python's decimal float repr; the model renders the rational with
`toString`, which, like the repr, consists only of digits, signs and
punctuation and therefore never equals a grade-marker glyph. -/
def pyStr : Value → String
  | Value.null => "None"
  | Value.num q => toString q
  | Value.str s => s

/-- Value of an ASCII digit string (caller checks all chars are digits). -/
def digitsVal (ds : List Char) : ℕ :=
  ds.foldl (fun n c => 10 * n + (c.toNat - 48)) 0

/-- Exponent part of a float literal, after the `e`/`E` marker. -/
def parseExp : List Char → Option ℤ
  | [] => none
  | '+' :: ds => if ds ≠ [] ∧ ds.all Char.isDigit then some (digitsVal ds : ℤ) else none
  | '-' :: ds => if ds ≠ [] ∧ ds.all Char.isDigit then some (-(digitsVal ds : ℤ)) else none
  | ds => if ds.all Char.isDigit then some (digitsVal ds : ℤ) else none

/-- `10 ^ e` as a rational, for an integer exponent. -/
def zpow10 (e : ℤ) : ℚ :=
  if 0 ≤ e then ((10 : ℚ) ^ e.toNat) else 1 / ((10 : ℚ) ^ (-e).toNat)

/-- Mantissa of a float literal: digits with an optional decimal point. -/
def parseMantissa (cs : List Char) : Option ℚ :=
  let p := cs.span (fun c => c ≠ '.')
  match p.2 with
  | [] =>
      if cs ≠ [] ∧ cs.all Char.isDigit then some ((digitsVal cs : ℚ)) else none
  | _ :: frac =>
      if (p.1 ≠ [] ∨ frac ≠ []) ∧ p.1.all Char.isDigit ∧ frac.all Char.isDigit then
        some ((digitsVal p.1 : ℚ) + (digitsVal frac : ℚ) / ((10 : ℚ) ^ frac.length))
      else none

/-- Unsigned float literal: mantissa plus optional exponent. -/
def parseUnsignedFloat (cs : List Char) : Option ℚ :=
  let p := cs.span (fun c => c ≠ 'e' ∧ c ≠ 'E')
  match p.2 with
  | [] => parseMantissa p.1
  | _ :: es =>
      match parseMantissa p.1, parseExp es with
      | some m, some e => some (m * zpow10 e)
      | _, _ => none

/-- Python `float(s)` on an already-stripped string, for finite decimal
literals (an optional sign, digits with an optional point, an optional
exponent).  `inf`/`nan` words, underscores and non-ASCII digits are
outside the model: no claim involves them and they have no rational
value.  `none` models the `ValueError` that `float` raises. -/
def pyFloat (s : String) : Option ℚ :=
  match s.data with
  | '+' :: rest => parseUnsignedFloat rest
  | '-' :: rest => (parseUnsignedFloat rest).map (fun q => -q)
  | rest => parseUnsignedFloat rest

/-- `_safe_numeric(value, default)`: `None` maps to the default, a
numeric value is cast to float and returned, anything else is stringified,
stripped and parsed as a float, with the default absorbing parse failure.
The function is total: no input makes it raise. -/
def safeNumeric (v : Value) (d : ℚ) : ℚ :=
  match v with
  | Value.null => d
  | Value.num q => q
  | Value.str s => (pyFloat s.trim).getD d

/-- Round a rational to the nearest integer, ties to even: Python's
`round` on exactly-representable values. -/
def roundHalfEven (x : ℚ) : ℤ :=
  let f := x.floor
  let r := x - (f : ℚ)
  if r < 1 / 2 then f
  else if 1 / 2 < r then f + 1
  else if f % 2 = 0 then f else f + 1

/-- Python `round(x, 2)`. -/
def round2 (x : ℚ) : ℚ :=
  ((roundHalfEven (100 * x) : ℚ)) / 100

example : safeNumeric (Value.str "3.5") 0 = 3.5 := by with_unfolding_all decide
example : safeNumeric (Value.str " -2e1 ") 0 = -20 := by with_unfolding_all decide
example : safeNumeric (Value.str ".5") 0 = 1 / 2 := by with_unfolding_all decide
example : safeNumeric (Value.str "1.e3") 0 = 1000 := by with_unfolding_all decide
example : safeNumeric (Value.str "abc") 7 = 7 := by with_unfolding_all decide
example : safeNumeric (Value.str "1.2.3") 7 = 7 := by with_unfolding_all decide
example : round2 (29 / 250) = 12 / 100 := by decide
example : round2 (87 / 2500) = 3 / 100 := by decide
example : round2 (9 / 250) = 4 / 100 := by decide
example : roundHalfEven (5 / 2) = 2 := by decide
example : roundHalfEven (-1 / 2) = 0 := by decide

/-! ### Feature scorer (`_compute_base_score`) -/

/-- The three categorical bonus columns checked by `_compute_base_score`. -/
def bonusFlags : List String := ["重賞実績", "中山実績", "芝適性"]

/-- The qualifying set of grade markers `{"◎", "○", "▲", "A", "B"}`. -/
def gradeMarkers : List String := ["◎", "○", "▲", "A", "B"]

/-- Whether one bonus column of a row qualifies:
`str(row.get(flag, "")).strip() in {"◎", "○", "▲", "A", "B"}`. -/
def flagQualifies (row : Row) (flag : String) : Bool :=
  decide ((pyStr (rowGet row flag (Value.str ""))).trim ∈ gradeMarkers)

/-- `_compute_base_score(row)`: the sum of the four weighted core features,
then a flat `1.5` added for each qualifying bonus column. -/
def computeBaseScore (row : Row) : ℚ :=
  let core : List ℚ :=
    [safeNumeric (rowGet row "総合評価" (Value.num 0)) 0,
     safeNumeric (rowGet row "近走指数" (Value.num 0)) 0,
     safeNumeric (rowGet row "スピード指数" (Value.num 0)) 0,
     safeNumeric (rowGet row "調教評価" (Value.num 0)) 0 * 0.5]
  let score := core.sum
  bonusFlags.foldl (fun s flag => if flagQualifies row flag then s + 1.5 else s) score

/-- Number of qualifying bonus columns of a row. -/
def bonusCount (row : Row) : ℕ :=
  bonusFlags.countP (flagQualifies row)

/-- Closed form of the base score: the four weighted coerced features plus
`1.5` per qualifying bonus flag. -/
theorem computeBaseScore_closed (row : Row) :
    computeBaseScore row =
      safeNumeric (rowGet row "総合評価" (Value.num 0)) 0 +
      safeNumeric (rowGet row "近走指数" (Value.num 0)) 0 +
      safeNumeric (rowGet row "スピード指数" (Value.num 0)) 0 +
      0.5 * safeNumeric (rowGet row "調教評価" (Value.num 0)) 0 +
      1.5 * (bonusCount row : ℚ) := by
  simp only [computeBaseScore, bonusCount, bonusFlags, List.foldl, List.countP,
    List.countP.go, List.sum_cons, List.sum_nil]
  rcases h1 : flagQualifies row "重賞実績" <;>
    rcases h2 : flagQualifies row "中山実績" <;>
      rcases h3 : flagQualifies row "芝適性" <;>
        simp [h1, h2, h3] <;> ring

/-- Setting an unrelated column does not change a `rowGet` at another key. -/
theorem rowGet_rowSet_ne (r : Row) (k g : String) (v d : Value) (h : g ≠ k) :
    rowGet (rowSet r k v) g d = rowGet r g d := by
  simp [rowGet, rowSet, List.lookup, beq_eq_false_iff_ne.mpr h]

/-- Reading back the column just set. -/
theorem rowGet_rowSet_self (r : Row) (k : String) (v d : Value) :
    rowGet (rowSet r k v) k d = v := by
  simp [rowGet, rowSet, List.lookup]

/-! ### Ranker (`build_prediction`)

`sort_values` is modelled as an insertion sort over a lexicographic
comparison of the key columns.  The comparison is the numeric order on
numeric cells; to keep it total on the whole `Value` type it is extended
by `None < numbers < strings` with strings ordered lexicographically
(pandas raises on such mixed columns, so no claim depends on the
extension).  Caveat on tie order: pandas' multi-key sort goes through a
stable lexsort, which the insertion sort reproduces, but the single-key
sort uses the default quicksort, whose order among tied rows is
unspecified; the insertion-sort model picks the original order there,
and no theorem below relies on that extra guarantee. -/

/-- Strict total order on cell values used by the sort model. -/
def vltB : Value → Value → Bool
  | Value.null, Value.null => false
  | Value.null, Value.num _ => true
  | Value.null, Value.str _ => true
  | Value.num _, Value.null => false
  | Value.num p, Value.num q => decide (p < q)
  | Value.num _, Value.str _ => true
  | Value.str _, Value.null => false
  | Value.str _, Value.num _ => false
  | Value.str s, Value.str t => decide (s < t)

theorem vltB_irrefl (a : Value) : vltB a a = false := by
  cases a <;> simp [vltB]

theorem vltB_ne {a b : Value} (h : vltB a b = true) : a ≠ b := by
  intro e; subst e; rw [vltB_irrefl] at h; exact Bool.false_ne_true h

theorem vltB_total {a b : Value} (h : a ≠ b) : vltB a b = true ∨ vltB b a = true := by
  cases a <;> cases b <;> simp_all [vltB, Value.num.injEq, Value.str.injEq]
  exact fun e => h (String.ext e)

theorem vltB_trans {a b c : Value} (h1 : vltB a b = true) (h2 : vltB b c = true) :
    vltB a c = true := by
  cases a <;> cases b <;> cases c <;> simp_all [vltB]
  case num.num.num => exact lt_trans h1 h2
  case str.str.str => exact lt_trans h1 h2

/-- Lexicographic row comparison for `sort_values`: first key column
first, each either ascending (`true`) or descending (`false`); rows equal
on all keys compare `≤` both ways (so the sort is stable on full ties). -/
def rowLeB (keys : List (String × Bool)) (a b : Row) : Bool :=
  match keys with
  | [] => true
  | (k, asc) :: ks =>
      let va := rowGet a k Value.null
      let vb := rowGet b k Value.null
      if va = vb then rowLeB ks a b
      else if asc then vltB va vb else vltB vb va

/-- The sort relation as a proposition. -/
def rowLe (keys : List (String × Bool)) (a b : Row) : Prop :=
  rowLeB keys a b = true

instance (keys : List (String × Bool)) : DecidableRel (rowLe keys) :=
  fun _ _ => inferInstanceAs (Decidable (_ = true))

theorem rowLe_total (keys : List (String × Bool)) (a b : Row) :
    rowLe keys a b ∨ rowLe keys b a := by
  induction keys with
  | nil => exact Or.inl rfl
  | cons kv ks ih =>
      obtain ⟨k, asc⟩ := kv
      by_cases h : rowGet a k Value.null = rowGet b k Value.null
      · rcases ih with h' | h' <;> [left; right] <;>
          simp_all [rowLe, rowLeB, h.symm]
      · rcases vltB_total h with hl | hl <;> cases asc <;>
          simp_all [rowLe, rowLeB, Ne.symm h]

theorem rowLe_trans (keys : List (String × Bool)) (a b c : Row)
    (h1 : rowLe keys a b) (h2 : rowLe keys b c) : rowLe keys a c := by
  induction keys with
  | nil => exact rfl
  | cons kv ks ih =>
      obtain ⟨k, asc⟩ := kv
      simp only [rowLe, rowLeB] at h1 h2 ⊢
      by_cases hab : rowGet a k Value.null = rowGet b k Value.null <;>
        by_cases hbc : rowGet b k Value.null = rowGet c k Value.null
      · simp only [if_pos (hab.trans hbc)]
        rw [if_pos hab] at h1; rw [if_pos hbc] at h2
        exact ih h1 h2
      · rw [if_pos hab] at h1; rw [if_neg hbc] at h2
        have hac : rowGet a k Value.null ≠ rowGet c k Value.null := hab ▸ hbc
        rw [if_neg hac, hab]
        exact h2
      · rw [if_neg hab] at h1; rw [if_pos hbc] at h2
        have hac : rowGet a k Value.null ≠ rowGet c k Value.null := fun e => hab (hbc ▸ e)
        rw [if_neg hac, ← hbc]
        exact h1
      · rw [if_neg hab] at h1; rw [if_neg hbc] at h2
        cases asc
        · simp only [Bool.false_eq_true, if_false] at h1 h2
          have h3 := vltB_trans h2 h1
          have hac : rowGet a k Value.null ≠ rowGet c k Value.null :=
            Ne.symm (vltB_ne h3)
          simp [if_neg hac, h3]
        · simp only [if_true] at h1 h2
          have h3 := vltB_trans h1 h2
          have hac := vltB_ne h3
          simp [if_neg hac, h3]

/-- Rows that agree on every key column compare `≤` (both ways): with a
stable sort this is what keeps ties in their original order. -/
theorem rowLe_of_keys_eq (keys : List (String × Bool)) (a b : Row)
    (h : ∀ k ∈ keys.map Prod.fst, rowGet a k Value.null = rowGet b k Value.null) :
    rowLe keys a b := by
  induction keys with
  | nil => exact rfl
  | cons kv ks ih =>
      obtain ⟨k, asc⟩ := kv
      have hk := h k (by simp)
      simp only [rowLe, rowLeB, if_pos hk]
      exact ih (fun g hg => h g (by simp [hg]))

/-- The column written by `scored["_score"] = ...`. -/
def scoreCol : String := "_score"

/-- A row extended with its base score, as the transient score column does. -/
def scoreRow (r : Row) : Row :=
  rowSet r scoreCol (Value.num (computeBaseScore r))

/-- `scored = df.copy(); scored["_score"] = scored.apply(_compute_base_score, axis=1)`. -/
def scoredDf (df : DataFrame) : DataFrame :=
  { cols := if scoreCol ∈ df.cols then df.cols else df.cols ++ [scoreCol],
    rows := df.rows.map scoreRow }

/-- The sort keys of `build_prediction`: score descending, then — when the
entrant-number column is present — entrant number ascending. -/
def sortKeysOf (df : DataFrame) : List (String × Bool) :=
  if "馬番" ∈ (scoredDf df).cols then [(scoreCol, false), ("馬番", true)]
  else [(scoreCol, false)]

/-- The rows of `scored.sort_values(...)`.  The insertion sort is an
exact model of the multi-key (stable lexsort) branch; in the single-key
branch pandas' default quicksort leaves the relative order of
equal-score rows unspecified, where this model keeps the original order
— a choice nothing proved below depends on. -/
def sortedScored (df : DataFrame) : List Row :=
  List.insertionSort (rowLe (sortKeysOf df)) (scoredDf df).rows

/-- The five ordered pick labels. -/
def PredictionRoles : List String := ["◎本命", "○対抗", "▲単穴", "☆穴馬", "✕危険馬"]

/-- The per-label pick strings, zipping the labels with the top rows. -/
def picksOf (sorted : List Row) : List (String × String) :=
  (PredictionRoles.zip (sorted.take PredictionRoles.length)).map
    (fun p =>
      (p.1, p.1 ++ ": " ++ pyStr (rowGet p.2 "馬名" (Value.str "不明")) ++
        " (馬番 " ++ pyStr (rowGet p.2 "馬番" (Value.str "?")) ++ ")"))

/-- The bet-plan sentence built from the top three entrant numbers. -/
def buyMessageOf (sorted : List Row) : String :=
  let tops := (sorted.take 3).map (fun r => pyStr (rowGet r "馬番" (Value.str "?")))
  "三連複フォーメーション例: 1列目 " ++ String.intercalate "・" (tops.take 1) ++
    ", 2列目 " ++ String.intercalate "・" (tops.take 2) ++
    ", 3列目 " ++ String.intercalate "・" tops ++ "〜人気薄を網羅。"

/-- The fixed message returned for an empty table. -/
def emptyDataMessage : String := "データが空です。Excelを読み込んでください。"

/-- `build_prediction(df)`. -/
def buildPrediction (df : DataFrame) : List (String × String) × String :=
  if dfEmpty df then ([], emptyDataMessage)
  else (picksOf (sortedScored df), buyMessageOf (sortedScored df))

/-- `build_prediction`, run against an explicit object heap so that the
copy-then-mutate behaviour of the source is visible: the caller's frame
lives at index `i`, `df.copy()` allocates a fresh object, the transient
score column is written to that copy, and `sort_values` allocates again. -/
def buildPredictionHeap (heap : List DataFrame) (i : ℕ) :
    List DataFrame × (List (String × String) × String) :=
  let df := (heap[i]?).getD default
  if dfEmpty df then (heap, ([], emptyDataMessage))
  else
    let copyRef := heap.length
    let h1 := heap ++ [df]
    let h2 := h1.set copyRef (scoredDf df)
    let h3 := h2 ++ [{ cols := (scoredDf df).cols, rows := sortedScored df }]
    (h3, (picksOf (sortedScored df), buyMessageOf (sortedScored df)))

/-! ### Single-entrant evaluator (`evaluate_single`) -/

/-- The result record of the evaluator (`HorseEvaluation` dataclass). -/
structure HorseEvaluation where
  number : ℤ
  horse_score : ℚ
  jockey_score : ℚ
  course_score : ℚ
  overall_score : ℚ
  horse_comment : String
  jockey_comment : String
  course_comment : String
  summary : String
deriving DecidableEq, Repr

/-- Python `value == number` between a cell value and an int: true exactly
for a numeric cell with that value. -/
def valueEqInt (v : Value) (n : ℤ) : Bool :=
  match v with
  | Value.num q => decide (q = (n : ℚ))
  | _ => false

/-- `_extract_target_row(df, number)`: `None` when the entrant-number
column is absent, else the first row whose entrant number matches. -/
def extractTargetRow (df : DataFrame) (number : ℤ) : Option Row :=
  if "馬番" ∈ df.cols then
    match df.rows.filter (fun r => valueEqInt (rowGet r "馬番" Value.null) number) with
    | [] => none
    | r :: _ => some r
  else none

/-- Entrant sub-score before rounding: potential index (falling back to
the alt power index only when the column is absent) plus training
evaluation, each coerced with default 0. -/
def horseRawScore (row : Row) : ℚ :=
  safeNumeric (rowGet row "馬ポテンシャル" (rowGet row "馬力指数" (Value.num 0))) 0 +
    safeNumeric (rowGet row "調教評価" (Value.num 0)) 0

/-- Handler sub-score before rounding. -/
def jockeyRawScore (row : Row) : ℚ :=
  safeNumeric (rowGet row "騎手評価" (Value.num 0)) 0 +
    safeNumeric (rowGet row "騎手勝率" (Value.num 0)) 0

/-- Venue sub-score before rounding: venue-specific index, falling back to
course aptitude only when the column is absent. -/
def courseRawScore (row : Row) : ℚ :=
  safeNumeric (rowGet row "中山実績指数" (rowGet row "コース適性" (Value.num 0))) 0

/-- Display form of a coerced numeric, standing for Python float repr. -/
def fmtQ (q : ℚ) : String := toString q

/-- The zero-filled evaluation returned when no row matches. -/
def missingEvaluation (number : ℤ) : HorseEvaluation :=
  { number := number
    horse_score := 0
    jockey_score := 0
    course_score := 0
    overall_score := 0
    horse_comment := "対象の馬番がデータに存在しません。"
    jockey_comment := ""
    course_comment := ""
    summary := "データを確認してください。" }

/-- `evaluate_single(df, number)`, the deterministic path. -/
def evaluateSingle (df : DataFrame) (number : ℤ) : HorseEvaluation :=
  match extractTargetRow df number with
  | none => missingEvaluation number
  | some row =>
      let horse_score := horseRawScore row
      let jockey_score := jockeyRawScore row
      let course_score := courseRawScore row
      let overall_score := round2 (horse_score * 0.5 + jockey_score * 0.3 + course_score * 0.2)
      { number := number
        horse_score := round2 horse_score
        jockey_score := round2 jockey_score
        course_score := round2 course_score
        overall_score := overall_score
        horse_comment := "馬ポテンシャル: " ++
          fmtQ (safeNumeric (rowGet row "馬ポテンシャル" (Value.str "N/A")) 0) ++ " / 調教評価: " ++
          fmtQ (safeNumeric (rowGet row "調教評価" (Value.str "N/A")) 0) ++ "。"
        jockey_comment := "騎手評価: " ++
          fmtQ (safeNumeric (rowGet row "騎手評価" (Value.str "N/A")) 0) ++ " / 勝率: " ++
          fmtQ (safeNumeric (rowGet row "騎手勝率" (Value.str "N/A")) 0) ++ "%。"
        course_comment := "コース適性: " ++
          fmtQ (safeNumeric (rowGet row "コース適性" (Value.str "N/A")) 0) ++ " / 中山実績: " ++
          fmtQ (safeNumeric (rowGet row "中山実績指数" (Value.str "N/A")) 0) ++ "。"
        summary := "総合評価 " ++ fmtQ overall_score ++
          " 点。馬の完成度を軸に、騎手の安定感と中山適性を加味したバランス型の評価です。" }

/-! ### Numerology plan builder (`build_sign_theory_plan`) -/

/-- The built-in default event list. -/
def defaultEvents : List (String × List ℤ) :=
  [("阪神淡路大震災から30年", [1, 7, 30]),
   ("エリザベス女王生誕99周年からの節目", [9, 9, 12]),
   ("阪神優勝関連の数字", [6, 18]),
   ("東京オリンピック開催から4年", [2, 4, 20])]

/-- `events or default_events`: Python `or` falls back to the default
list when the argument is `None` or the empty (falsy) list. -/
def eventListOf (events : Option (List (String × List ℤ))) : List (String × List ℤ) :=
  match events with
  | none => defaultEvents
  | some l => if l.isEmpty then defaultEvents else l

/-- The accumulated digit pool, in event order (the `extend` loop). -/
def highlightedNumbers (evs : List (String × List ℤ)) : List ℤ :=
  (evs.map Prod.snd).flatten

/-- The per-event step strings. -/
def stepsOf (evs : List (String × List ℤ)) : List String :=
  evs.map (fun p =>
    "・" ++ p.1 ++ ": " ++ String.intercalate ", " (p.2.map toString) ++ " が浮上")

/-- `sorted({n for n in highlighted_numbers if 1 <= n <= 18})`. -/
def uniqueNumbers (evs : List (String × List ℤ)) : List ℤ :=
  List.insertionSort (· ≤ ·)
    ((highlightedNumbers evs).filter (fun n => decide (1 ≤ n) && decide (n ≤ 18))).dedup

/-- All pairs `(a, b)` with `a < b`, in nested ascending iteration order. -/
def pairList (u : List ℤ) : List (ℤ × ℤ) :=
  u.flatMap (fun a => (u.filter (fun b => decide (a < b))).map (fun b => (a, b)))

/-- The pair strings, truncated to the first 10. -/
def pairStrings (evs : List (String × List ℤ)) : List String :=
  ((pairList (uniqueNumbers evs)).map (fun p => toString p.1 ++ "-" ++ toString p.2)).take 10

/-- `build_sign_theory_plan(events)`. -/
def buildSignTheoryPlan (events : Option (List (String × List ℤ))) :
    List String × String :=
  let evs := eventListOf events
  (stepsOf evs,
    "サイン有力数字: " ++ String.intercalate ", " ((uniqueNumbers evs).map toString) ++
      "\n買い目案 (ワイド/三連複): " ++ String.intercalate ", " (pairStrings evs))

/-! ### Claims -/

/-- C1.  The base score is the sum of the coerced (default 0) overall
rating, recent-form index and speed index, plus `0.5` times the coerced
training evaluation, plus `1.5` for each of the three bonus columns whose
trimmed string value is one of the five grade markers; the bonuses are
additive and total at most `4.5`. -/
theorem baseScore_formula (row : Row) :
    computeBaseScore row =
      safeNumeric (rowGet row "総合評価" (Value.num 0)) 0 +
      safeNumeric (rowGet row "近走指数" (Value.num 0)) 0 +
      safeNumeric (rowGet row "スピード指数" (Value.num 0)) 0 +
      0.5 * safeNumeric (rowGet row "調教評価" (Value.num 0)) 0 +
      1.5 * ((bonusFlags.countP
        (fun flag => decide ((pyStr (rowGet row flag (Value.str ""))).trim ∈ gradeMarkers))) : ℚ) ∧
    1.5 * ((bonusFlags.countP
        (fun flag => decide ((pyStr (rowGet row flag (Value.str ""))).trim ∈ gradeMarkers))) : ℚ) ≤ 4.5 := by
  have hc : (bonusFlags.countP
      (fun flag => decide ((pyStr (rowGet row flag (Value.str ""))).trim ∈ gradeMarkers))) =
      bonusCount row := rfl
  constructor
  · rw [hc]; exact computeBaseScore_closed row
  · rw [hc]
    have h3 : bonusCount row ≤ 3 := List.countP_le_length _
    have : ((bonusCount row : ℚ)) ≤ 3 := by exact_mod_cast h3
    nlinarith

/-- A write to a column other than `g` leaves `g`'s qualification alone. -/
theorem flagQualifies_rowSet (row : Row) (f : String) (v : Value) (g : String)
    (h : g ≠ f) : flagQualifies (rowSet row f v) g = flagQualifies row g := by
  simp [flagQualifies, rowGet_rowSet_ne _ _ _ _ _ h]

/-- A write to a non-bonus column leaves the bonus count alone. -/
theorem bonusCount_rowSet (row : Row) (f : String) (v : Value)
    (h1 : f ≠ "重賞実績") (h2 : f ≠ "中山実績") (h3 : f ≠ "芝適性") :
    bonusCount (rowSet row f v) = bonusCount row := by
  simp [bonusCount, bonusFlags, List.countP_cons,
    flagQualifies_rowSet row f v _ (Ne.symm h1),
    flagQualifies_rowSet row f v _ (Ne.symm h2),
    flagQualifies_rowSet row f v _ (Ne.symm h3)]

/-- C8.  The base score is monotone (non-decreasing) in each of the four
weighted numeric features separately: raising that feature's numeric
value, all other fields fixed, never lowers the score. -/
theorem baseScore_monotone (row : Row) (f : String)
    (hf : f ∈ ["総合評価", "近走指数", "スピード指数", "調教評価"])
    (q q' : ℚ) (hq : q ≤ q') :
    computeBaseScore (rowSet row f (Value.num q)) ≤
      computeBaseScore (rowSet row f (Value.num q')) := by
  rw [computeBaseScore_closed, computeBaseScore_closed]
  fin_cases hf <;>
    rw [bonusCount_rowSet _ _ _ (by decide) (by decide) (by decide),
      bonusCount_rowSet _ _ _ (by decide) (by decide) (by decide)] <;>
    simp [rowGet_rowSet_self, rowGet_rowSet_ne, safeNumeric] <;>
    linarith

/-- C8 witness: raising the overall rating from 1 to 2 on the empty row. -/
theorem baseScore_monotone_witness :
    computeBaseScore (rowSet [] "総合評価" (Value.num 1)) ≤
      computeBaseScore (rowSet [] "総合評価" (Value.num 2)) :=
  baseScore_monotone [] "総合評価" (by decide) 1 2 (by norm_num)

/-- C4.  Coercion: `None` gives the default, a numeric value is returned
as a float, any other value is stringified, stripped and float-parsed
with the default absorbing parse failure; the function is total, and the
four documented examples hold. -/
theorem safeNumeric_spec :
    (∀ d : ℚ, safeNumeric Value.null d = d) ∧
    (∀ (q d : ℚ), safeNumeric (Value.num q) d = q) ∧
    (∀ (s : String) (d q : ℚ), pyFloat s.trim = some q → safeNumeric (Value.str s) d = q) ∧
    (∀ (s : String) (d : ℚ), pyFloat s.trim = none → safeNumeric (Value.str s) d = d) ∧
    safeNumeric (Value.str "3.5") 0 = 3.5 ∧
    safeNumeric Value.null 0 = 0 ∧
    safeNumeric (Value.str "abc") 0 = 0 ∧
    safeNumeric (Value.num 7) 0 = 7 := by
  refine ⟨fun d => rfl, fun q d => rfl, fun s d q h => ?_, fun s d h => ?_, ?_, rfl, ?_, rfl⟩
  · simp [safeNumeric, h]
  · simp [safeNumeric, h]
  · with_unfolding_all decide
  · with_unfolding_all decide

/-- C4 witness: the string-parse branch at the concrete input `" 3.5 "`. -/
theorem safeNumeric_spec_witness : safeNumeric (Value.str " 3.5 ") 1 = 3.5 :=
  safeNumeric_spec.2.2.1 " 3.5 " 1 3.5 (by with_unfolding_all decide)

/-- C6.  On an empty table `build_prediction` short-circuits: it returns
the empty pick mapping and the fixed "data is empty" message (no row is
scored — an empty table has none). -/
theorem buildPrediction_empty (df : DataFrame) (h : dfEmpty df = true) :
    buildPrediction df = ([], "データが空です。Excelを読み込んでください。") := by
  simp [buildPrediction, h, emptyDataMessage]

/-- C6 witness: the empty frame. -/
theorem buildPrediction_empty_witness :
    buildPrediction ⟨[], []⟩ = ([], "データが空です。Excelを読み込んでください。") :=
  buildPrediction_empty ⟨[], []⟩ (by decide)

/-- No entrant-number column, or no matching row, makes the row lookup
return `none`. -/
theorem extractTargetRow_eq_none (df : DataFrame) (n : ℤ)
    (h : "馬番" ∉ df.cols ∨
      ∀ r ∈ df.rows, valueEqInt (rowGet r "馬番" Value.null) n = false) :
    extractTargetRow df n = none := by
  rcases h with h | h
  · simp [extractTargetRow, h]
  · have : df.rows.filter (fun r => valueEqInt (rowGet r "馬番" Value.null) n) = [] :=
      List.filter_eq_nil_iff.mpr (fun r hr => by simp [h r hr])
    simp [extractTargetRow, this]

/-- C5.  When the entrant-number column is absent, or no row's entrant
number equals the requested one, `evaluate_single` returns (it cannot
raise: it is total) a `HorseEvaluation` with all four scores `0.0` and
the "no matching entrant" comment. -/
theorem evaluateSingle_not_found (df : DataFrame) (n : ℤ)
    (h : "馬番" ∉ df.cols ∨
      ∀ r ∈ df.rows, valueEqInt (rowGet r "馬番" Value.null) n = false) :
    (evaluateSingle df n).horse_score = 0 ∧
    (evaluateSingle df n).jockey_score = 0 ∧
    (evaluateSingle df n).course_score = 0 ∧
    (evaluateSingle df n).overall_score = 0 ∧
    (evaluateSingle df n).horse_comment = "対象の馬番がデータに存在しません。" ∧
    evaluateSingle df n = missingEvaluation n := by
  rw [evaluateSingle, extractTargetRow_eq_none df n h]
  exact ⟨rfl, rfl, rfl, rfl, rfl, rfl⟩

/-- C5 witness: entrant 99 on a one-row table that has numbers 1 only. -/
theorem evaluateSingle_not_found_witness :
    (evaluateSingle ⟨["馬番"], [[("馬番", Value.num 1)]]⟩ 99).overall_score = 0 :=
  (evaluateSingle_not_found ⟨["馬番"], [[("馬番", Value.num 1)]]⟩ 99
    (Or.inr (by decide))).2.2.2.1

/-- A table on which the claimed rounding invariant fails: one row with
entrant number 7 and a handler rating of `0.116`. -/
def roundGapFrame : DataFrame :=
  ⟨["馬番", "騎手評価"], [[("馬番", Value.num 7), ("騎手評価", Value.num (29 / 250))]]⟩

/-- C3 counterexample.  The composite is rounded from the unrounded
sub-scores, so it can differ from the same formula over the rounded
sub-score fields of the returned record: with a handler rating of
`0.116` the record holds `jockey_score = 0.12` and
`overall_score = round(0.3 * 0.116, 2) = 0.03`, while the claimed formula
gives `round(0.3 * 0.12, 2) = 0.04`. -/
theorem overall_from_rounded_fields_counterexample :
    ¬ ((evaluateSingle roundGapFrame 7).overall_score =
      round2 ((evaluateSingle roundGapFrame 7).horse_score * 0.5 +
        (evaluateSingle roundGapFrame 7).jockey_score * 0.3 +
        (evaluateSingle roundGapFrame 7).course_score * 0.2)) := by
  decide

/-- C3 (amended).  In the deterministic path the composite equals
`round(0.5*h + 0.3*j + 0.2*c, 2)` over the unrounded sub-scores
`h`, `j`, `c` computed from the matched row; the record's sub-score fields
are those same values rounded to two decimals. -/
theorem overall_from_raw_subscores (df : DataFrame) (n : ℤ) (row : Row)
    (h : extractTargetRow df n = some row) :
    (evaluateSingle df n).overall_score =
      round2 (horseRawScore row * 0.5 + jockeyRawScore row * 0.3 + courseRawScore row * 0.2) ∧
    (evaluateSingle df n).horse_score = round2 (horseRawScore row) ∧
    (evaluateSingle df n).jockey_score = round2 (jockeyRawScore row) ∧
    (evaluateSingle df n).course_score = round2 (courseRawScore row) := by
  rw [evaluateSingle, h]
  exact ⟨rfl, rfl, rfl, rfl⟩

/-- C3 witness: the amended identity evaluated on the same concrete frame. -/
theorem overall_from_raw_subscores_witness :
    (evaluateSingle roundGapFrame 7).overall_score =
      round2 (horseRawScore [("馬番", Value.num 7), ("騎手評価", Value.num (29 / 250))] * 0.5 +
        jockeyRawScore [("馬番", Value.num 7), ("騎手評価", Value.num (29 / 250))] * 0.3 +
        courseRawScore [("馬番", Value.num 7), ("騎手評価", Value.num (29 / 250))] * 0.2) :=
  (overall_from_raw_subscores roundGapFrame 7
    [("馬番", Value.num 7), ("騎手評価", Value.num (29 / 250))]
    (by decide)).1

/-- C10.  The fallback reads (`馬ポテンシャル` falling back to `馬力指数`,
`中山実績指数` falling back to `コース適性`) trigger only when the primary
column is absent from the row: a present-but-unparseable primary value
coerces to the default 0 and the fallback column is ignored. -/
theorem fallback_only_when_absent (df : DataFrame) (n : ℤ) (row : Row)
    (h : extractTargetRow df n = some row) :
    (∀ s : String, List.lookup "馬ポテンシャル" row = some (Value.str s) →
      pyFloat s.trim = none →
      (evaluateSingle df n).horse_score =
        round2 (0 + safeNumeric (rowGet row "調教評価" (Value.num 0)) 0) ∧
      ∀ v : Value, horseRawScore (rowSet row "馬力指数" v) = horseRawScore row) ∧
    (∀ t : String, List.lookup "中山実績指数" row = some (Value.str t) →
      pyFloat t.trim = none →
      (evaluateSingle df n).course_score = round2 0 ∧
      ∀ v : Value, courseRawScore (rowSet row "コース適性" v) = courseRawScore row) := by
  constructor
  · intro s hs hp
    have hget : ∀ d : Value, rowGet row "馬ポテンシャル" d = Value.str s := by
      intro d; simp [rowGet, hs]
    constructor
    · rw [evaluateSingle, h]
      simp only [horseRawScore, hget, safeNumeric, hp, Option.getD_none, zero_add]
    · intro v
      have h1 : ∀ d, rowGet (rowSet row "馬力指数" v) "馬ポテンシャル" d = Value.str s := by
        intro d
        rw [rowGet_rowSet_ne row "馬力指数" "馬ポテンシャル" v d (by decide)]
        exact hget d
      simp only [horseRawScore, h1, hget,
        rowGet_rowSet_ne row "馬力指数" "調教評価" v (Value.num 0) (by decide)]
  · intro t ht hp
    have hget : ∀ d : Value, rowGet row "中山実績指数" d = Value.str t := by
      intro d; simp [rowGet, ht]
    constructor
    · rw [evaluateSingle, h]
      simp only [courseRawScore, hget, safeNumeric, hp, Option.getD_none]
    · intro v
      have h1 : ∀ d, rowGet (rowSet row "コース適性" v) "中山実績指数" d = Value.str t := by
        intro d
        rw [rowGet_rowSet_ne row "コース適性" "中山実績指数" v d (by decide)]
        exact hget d
      simp only [courseRawScore, h1, hget]

/-- C10 witness: a row whose potential index is the unparseable string
`"abc"` while an alt power index 99 is present; the entrant sub-score uses
the default 0 for the potential term, not 99. -/
theorem fallback_only_when_absent_witness :
    (evaluateSingle
        ⟨["馬番", "馬ポテンシャル", "馬力指数", "調教評価"],
         [[("馬番", Value.num 1), ("馬ポテンシャル", Value.str "abc"),
           ("馬力指数", Value.num 99), ("調教評価", Value.num 2)]]⟩ 1).horse_score =
      round2 (0 + safeNumeric (rowGet
        [("馬番", Value.num 1), ("馬ポテンシャル", Value.str "abc"),
         ("馬力指数", Value.num 99), ("調教評価", Value.num 2)] "調教評価" (Value.num 0)) 0) :=
  ((fallback_only_when_absent
      ⟨["馬番", "馬ポテンシャル", "馬力指数", "調教評価"],
       [[("馬番", Value.num 1), ("馬ポテンシャル", Value.str "abc"),
         ("馬力指数", Value.num 99), ("調教評価", Value.num 2)]]⟩ 1
      [("馬番", Value.num 1), ("馬ポテンシャル", Value.str "abc"),
       ("馬力指数", Value.num 99), ("調教評価", Value.num 2)]
      (by decide)).1 "abc"
      (by decide) (by with_unfolding_all decide)).1

/-- The strict lexicographic order on number pairs. -/
def pairLexLt (p q : ℤ × ℤ) : Prop :=
  p.1 < q.1 ∨ (p.1 = q.1 ∧ p.2 < q.2)

/-- The nested ascending enumeration of `a < b` pairs over a strictly
increasing list is strictly increasing lexicographically. -/
theorem pairList_pairwise (u : List ℤ) (hu : List.Pairwise (· < ·) u) :
    List.Pairwise pairLexLt (pairList u) := by
  rw [pairList, List.pairwise_flatMap]
  constructor
  · intro a _
    rw [List.pairwise_map]
    exact ((hu.filter _).imp (fun hbc => Or.inr ⟨rfl, hbc⟩))
  · refine hu.imp ?_
    intro a b hab x hx y hy
    obtain ⟨xa, -, rfl⟩ := List.mem_map.mp hx
    obtain ⟨ya, -, rfl⟩ := List.mem_map.mp hy
    exact Or.inl hab

/-- C7.  `unique_numbers` is exactly the digit pool of the event list in
use restricted to 1..18, without duplicates and sorted strictly
ascending (so default digits 30 and 20 are dropped), and the pair list
enumerates `a < b` pairs in strictly ascending lexicographic order,
truncated to at most 10 entries. -/
theorem signTheoryPlan_spec (events : Option (List (String × List ℤ))) :
    (∀ n : ℤ, n ∈ uniqueNumbers (eventListOf events) ↔
      (n ∈ highlightedNumbers (eventListOf events) ∧ 1 ≤ n ∧ n ≤ 18)) ∧
    List.Pairwise (· < ·) (uniqueNumbers (eventListOf events)) ∧
    (pairStrings (eventListOf events)).length ≤ 10 ∧
    List.Pairwise pairLexLt ((pairList (uniqueNumbers (eventListOf events))).take 10) ∧
    (∀ p ∈ pairList (uniqueNumbers (eventListOf events)), p.1 < p.2) ∧
    (30 : ℤ) ∉ uniqueNumbers (eventListOf none) ∧
    (20 : ℤ) ∉ uniqueNumbers (eventListOf none) := by
  have hmem : ∀ n : ℤ, n ∈ uniqueNumbers (eventListOf events) ↔
      (n ∈ highlightedNumbers (eventListOf events) ∧ 1 ≤ n ∧ n ≤ 18) := by
    intro n
    rw [uniqueNumbers, (List.perm_insertionSort _ _).mem_iff, List.mem_dedup,
      List.mem_filter]
    simp
  have hlt : List.Pairwise (· < ·) (uniqueNumbers (eventListOf events)) := by
    have hs : List.Sorted (· ≤ ·) (uniqueNumbers (eventListOf events)) :=
      List.sorted_insertionSort _ _
    have hn : (uniqueNumbers (eventListOf events)).Nodup :=
      (List.perm_insertionSort _ _).nodup_iff.mpr (List.nodup_dedup _)
    exact (hs.and hn).imp (fun h => lt_of_le_of_ne h.1 h.2)
  refine ⟨hmem, hlt, ?_, ?_, ?_, ?_, ?_⟩
  · exact List.length_take_le _ _
  · exact (pairList_pairwise _ hlt).sublist (List.take_sublist _ _)
  · intro p hp
    rw [pairList, List.mem_flatMap] at hp
    obtain ⟨a, -, hp⟩ := hp
    obtain ⟨b, hb, rfl⟩ := List.mem_map.mp hp
    simpa using (List.mem_filter.mp hb).2
  · decide
  · decide

/-- C7 witness: 1 is a default-event digit inside the 1..18 range, so it
belongs to the default `unique_numbers`. -/
theorem signTheoryPlan_spec_witness : (1 : ℤ) ∈ uniqueNumbers (eventListOf none) :=
  ((signTheoryPlan_spec none).1 1).mpr (by decide)

/-- Adding the transient score column does not change a row's base score. -/
theorem computeBaseScore_scoreRow (r : Row) :
    computeBaseScore (scoreRow r) = computeBaseScore r := by
  rw [scoreRow, computeBaseScore_closed, computeBaseScore_closed,
    bonusCount_rowSet r scoreCol _ (by decide) (by decide) (by decide),
    rowGet_rowSet_ne r scoreCol "総合評価" _ _ (by decide),
    rowGet_rowSet_ne r scoreCol "近走指数" _ _ (by decide),
    rowGet_rowSet_ne r scoreCol "スピード指数" _ _ (by decide),
    rowGet_rowSet_ne r scoreCol "調教評価" _ _ (by decide)]

/-- Every scored row carries its own base score in the score column. -/
theorem scoreVal_of_mem (df : DataFrame) (x : Row) (hx : x ∈ (scoredDf df).rows) :
    rowGet x scoreCol Value.null = Value.num (computeBaseScore x) := by
  obtain ⟨r, -, rfl⟩ := List.mem_map.mp hx
  rw [computeBaseScore_scoreRow]
  exact rowGet_rowSet_self r scoreCol _ _

/-- Adding the transient score column keeps the entrant number. -/
theorem bnVal_scoreRow (r : Row) (d : Value) :
    rowGet (scoreRow r) "馬番" d = rowGet r "馬番" d :=
  rowGet_rowSet_ne r scoreCol "馬番" _ d (by decide)

/-- The entrant-number column is in the scored copy iff it is in `df`. -/
theorem mem_scoredDf_cols (df : DataFrame) :
    "馬番" ∈ (scoredDf df).cols ↔ "馬番" ∈ df.cols := by
  simp only [scoredDf, scoreCol]
  by_cases h : "_score" ∈ df.cols
  · rw [if_pos h]
  · rw [if_neg h]
    simp

/-- Unfolding the two-key comparison on rows with numeric key cells. -/
theorem rowLe_two_spec (x y : Row) (sx sy nx ny : ℚ)
    (hsx : rowGet x scoreCol Value.null = Value.num sx)
    (hsy : rowGet y scoreCol Value.null = Value.num sy)
    (hnx : rowGet x "馬番" Value.null = Value.num nx)
    (hny : rowGet y "馬番" Value.null = Value.num ny)
    (h : rowLe [(scoreCol, false), ("馬番", true)] x y) :
    sy ≤ sx ∧ (sx = sy → nx ≤ ny) := by
  simp only [rowLe, rowLeB, hsx, hsy, hnx, hny] at h
  by_cases hss : sx = sy
  · subst hss
    refine ⟨le_refl _, fun _ => ?_⟩
    rw [if_pos rfl] at h
    by_cases hnn : nx = ny
    · exact le_of_eq hnn
    · have : Value.num nx ≠ Value.num ny := by simpa using hnn
      rw [if_neg this] at h
      simp only [vltB] at h
      simp at h
      exact le_of_lt h
  · have hne : Value.num sx ≠ Value.num sy := by simpa using hss
    rw [if_neg hne] at h
    simp only [vltB] at h
    simp at h
    exact ⟨le_of_lt h, fun e => absurd e hss⟩

/-- Unfolding the single-key comparison on rows with numeric score cells. -/
theorem rowLe_one_spec (x y : Row) (sx sy : ℚ)
    (hsx : rowGet x scoreCol Value.null = Value.num sx)
    (hsy : rowGet y scoreCol Value.null = Value.num sy)
    (h : rowLe [(scoreCol, false)] x y) : sy ≤ sx := by
  simp only [rowLe, rowLeB, hsx, hsy] at h
  by_cases hss : sx = sy
  · exact le_of_eq hss.symm
  · have hne : Value.num sx ≠ Value.num sy := by simpa using hss
    rw [if_neg hne] at h
    simp only [vltB] at h
    simp at h
    exact le_of_lt h

/-- The sorted rows are pairwise ordered by the sort relation. -/
theorem sortedScored_pairwise (df : DataFrame) :
    List.Pairwise (rowLe (sortKeysOf df)) (sortedScored df) := by
  haveI : IsTotal Row (rowLe (sortKeysOf df)) := ⟨rowLe_total _⟩
  haveI : IsTrans Row (rowLe (sortKeysOf df)) := ⟨rowLe_trans _⟩
  exact List.sorted_insertionSort _ _

/-- C9.  `build_prediction` never touches its caller's frame: the copy is
a fresh heap object, the transient score column is written to the copy,
and `sort_values` allocates again, so after the call the caller's slot
still holds exactly the original columns, rows and values — in particular
no `_score` column appears — and the returned result is the pure one. -/
theorem buildPrediction_frame (heap : List DataFrame) (i : ℕ) (df : DataFrame)
    (h : heap[i]? = some df) :
    ((buildPredictionHeap heap i).1)[i]? = some df ∧
    (buildPredictionHeap heap i).2 = buildPrediction df ∧
    ("_score" ∉ df.cols →
      ∀ df', ((buildPredictionHeap heap i).1)[i]? = some df' → "_score" ∉ df'.cols) := by
  have hi : i < heap.length := by
    rcases List.getElem?_eq_some_iff.mp h with ⟨hlt, -⟩
    exact hlt
  have hd : (heap[i]?).getD default = df := by rw [h]; rfl
  have hmain : ((buildPredictionHeap heap i).1)[i]? = some df ∧
      (buildPredictionHeap heap i).2 = buildPrediction df := by
    simp only [buildPredictionHeap, hd, buildPrediction]
    by_cases he : dfEmpty df
    · rw [if_pos he, if_pos he]
      exact ⟨h, rfl⟩
    · rw [if_neg he, if_neg he]
      refine ⟨?_, rfl⟩
      have hlen1 : i < (heap ++ [df]).length := by
        simp only [List.length_append, List.length_cons, List.length_nil]
        omega
      have hlen2 : i < ((heap ++ [df]).set heap.length (scoredDf df)).length := by
        simpa using hlen1
      rw [List.getElem?_append_left hlen2,
        List.getElem?_set_ne (by omega),
        List.getElem?_append_left hi]
      exact h
  exact ⟨hmain.1, hmain.2, fun hn df' hdf' => by
    rw [hmain.1] at hdf'
    cases hdf'
    exact hn⟩

/-- C9 witness: a heap holding one single-row frame. -/
theorem buildPrediction_frame_witness :
    ((buildPredictionHeap [⟨["馬番"], [[("馬番", Value.num 1)]]⟩] 0).1)[0]? =
      some ⟨["馬番"], [[("馬番", Value.num 1)]]⟩ :=
  (buildPrediction_frame [⟨["馬番"], [[("馬番", Value.num 1)]]⟩] 0
    ⟨["馬番"], [[("馬番", Value.num 1)]]⟩ (by decide)).1

end HorseApp
